import Mathlib

/-
Verification of the streaming response decoder/aggregator, tool registry and
driver of the Johnathan agent (src/src/api/client.rs, src/src/tools/registry.rs,
src/src/main.rs).

Modelling conventions:
* serde_json parsing (an external library) is abstracted as a bundle of oracle
  functions `Serde`; every other piece of logic is transcribed directly from
  the Rust source.
* Machine side effects of the chunk sink are modelled as an operation trace
  (`Op.sink` / `Op.append`) so that ordering of sink invocation versus text
  accumulation is observable.
* The HTTP transport is abstracted as the list of results that
  `BufReader::lines()` would yield: each item is `Except.ok line` or
  `Except.error e` (a read failure).
-/

/-- Minimal model of `serde_json::Value`. -/
inductive Json where
  | null : Json
  | bool : Bool → Json
  | num : Int → Json
  | str : String → Json
  | arr : List Json → Json
  | obj : List (String × Json) → Json

/-- The empty object `serde_json::Value::Object(serde_json::Map::new())`. -/
def Json.emptyObj : Json := Json.obj []

/-- Model of `struct Tool` from client.rs. -/
structure Tool where
  name : String
  description : String
  input_schema : Json

/-- Model of `struct ToolCall` from client.rs. -/
structure ToolCall where
  id : String
  name : String
  input : Json

/-- Model of `struct ChatResponse` from client.rs. -/
structure ChatResponse where
  text : String
  stop_reason : String
  tool_calls : List ToolCall

/-- Model of `ChatResponse::has_tool_calls` from client.rs. -/
def ChatResponse.has_tool_calls (r : ChatResponse) : Bool :=
  !r.tool_calls.isEmpty

/-- Model of `struct StreamContentBlock` from client.rs. -/
structure StreamContentBlock where
  block_type : String
  id : Option String
  name : Option String

/-- Model of `struct StreamContentBlockStart` from client.rs (the `index` field is
deserialized but never read by the aggregator). -/
structure StreamContentBlockStart where
  event_type : String
  index : Nat
  content_block : Option StreamContentBlock

/-- Model of `struct StreamDelta` from client.rs. -/
structure StreamDelta where
  delta_type : String
  text : Option String
  partial_json : Option String

/-- Model of `struct StreamContentBlockDelta` from client.rs. -/
structure StreamContentBlockDelta where
  event_type : String
  index : Nat
  delta : Option StreamDelta

/-- Model of `struct StreamMessageDeltaData` from client.rs. -/
structure StreamMessageDeltaData where
  stop_reason : Option String

/-- Model of `struct StreamMessageDelta` from client.rs. -/
structure StreamMessageDelta where
  event_type : String
  delta : Option StreamMessageDeltaData

/-- The four `serde_json::from_str` attempts the aggregator makes, abstracted
as oracle functions of the payload / buffer string.  `none` models a parse
error (`Err`), `some` models `Ok`. -/
structure Serde where
  parseContentBlockStart : String → Option StreamContentBlockStart
  parseContentBlockDelta : String → Option StreamContentBlockDelta
  parseMessageDelta : String → Option StreamMessageDelta
  parseValue : String → Option Json

/-- Observable operations performed while aggregating: a call of the
caller-supplied chunk sink (`on_text_chunk(&text)`) and the subsequent
`full_text.push_str(&text)`. -/
inductive Op where
  | sink : String → Op
  | append : String → Op
deriving DecidableEq, Repr

/-- The aggregator's mutable locals in `send_messages_streaming`. -/
structure AggState where
  full_text : String
  stop_reason : String
  tool_calls : List ToolCall
  current_tool_id : Option String
  current_tool_name : Option String
  current_tool_json : String

/-- Initial values of the aggregator locals (client.rs lines 264-271). -/
def initState : AggState :=
  { full_text := ""
    stop_reason := "unknown"
    tool_calls := []
    current_tool_id := none
    current_tool_name := none
    current_tool_json := "" }

/-- Rust `str::contains` with a string pattern: substring search, on the
character list. -/
def isSublistAt (pat : List Char) : List Char → Bool
  | [] => pat.isEmpty
  | c :: cs => pat.isPrefixOf (c :: cs) || isSublistAt pat cs

/-- Rust `data.contains(pat)` for string `pat`. -/
def strContains (s pat : String) : Bool :=
  isSublistAt pat.toList s.toList

/-- The literal substring the aggregator searches for to detect a
`content_block_stop` line (client.rs line 312). -/
def stopMarker : String := "\"type\":\"content_block_stop\""

/-- The `content_block_start` branch (client.rs lines 282-292). -/
def startStep (o : Serde) (data : String) (st : AggState) : AggState :=
  match o.parseContentBlockStart data with
  | some event =>
      if event.event_type = "content_block_start" then
        match event.content_block with
        | some block =>
            if block.block_type = "tool_use" then
              { st with current_tool_id := block.id
                        current_tool_name := block.name
                        current_tool_json := "" }
            else st
        | none => st
      else st
  | none => st

/-- The `content_block_delta` branch (client.rs lines 295-309): the text
delta first invokes the sink, then appends to `full_text`; a partial-JSON
delta appends to the tool-input buffer. -/
def deltaStep (o : Serde) (data : String) (st : AggState) : AggState × List Op :=
  match o.parseContentBlockDelta data with
  | some event =>
      if event.event_type = "content_block_delta" then
        match event.delta with
        | some delta =>
            let r1 :=
              match delta.text with
              | some t => ({ st with full_text := st.full_text ++ t }, [Op.sink t, Op.append t])
              | none => (st, ([] : List Op))
            let st2 :=
              match delta.partial_json with
              | some j => { r1.1 with current_tool_json := r1.1.current_tool_json ++ j }
              | none => r1.1
            (st2, r1.2)
        | none => (st, [])
      else (st, [])
  | none => (st, [])

/-- The `content_block_stop` branch (client.rs lines 312-319).  Note the Rust
code evaluates `current_tool_id.take()` and `current_tool_name.take()`
unconditionally once the substring matches, so both slots are cleared even
when only one of them was set; the buffer is cleared only on a successful
finalization. -/
def stopStep (o : Serde) (data : String) (st : AggState) : AggState :=
  if strContains data stopMarker then
    let tid := st.current_tool_id
    let tname := st.current_tool_name
    let st1 := { st with current_tool_id := none, current_tool_name := none }
    match tid, tname with
    | some i, some n =>
        let input := (o.parseValue st1.current_tool_json).getD Json.emptyObj
        { st1 with tool_calls := st1.tool_calls ++ [⟨i, n, input⟩]
                   current_tool_json := "" }
    | _, _ => st1
  else st

/-- The `message_delta` branch (client.rs lines 322-330). -/
def messageDeltaStep (o : Serde) (data : String) (st : AggState) : AggState :=
  match o.parseMessageDelta data with
  | some event =>
      if event.event_type = "message_delta" then
        match event.delta with
        | some d =>
            match d.stop_reason with
            | some reason => { st with stop_reason := reason }
            | none => st
        | none => st
      else st
  | none => st

/-- Processing of one `data: `-payload (client.rs lines 277-330): the `[DONE]`
terminator is dropped, otherwise the four independent branch checks run in
source order on the evolving state. -/
def processData (o : Serde) (st : AggState) (data : String) : AggState × List Op :=
  if data = "[DONE]" then (st, [])
  else
    let st1 := startStep o data st
    let r2 := deltaStep o data st1
    let st3 := stopStep o data r2.1
    let st4 := messageDeltaStep o data st3
    (st4, r2.2)

/-- Rust `line.strip_prefix("data: ")` (client.rs line 276), on the character
list: if the six marker characters lead the line, the rest of the line is
the payload. -/
def stripData (line : String) : Option String :=
  if List.isPrefixOf ("data: ").toList line.toList
  then some (String.mk (line.toList.drop 6))
  else none

/-- Processing of one successfully read line: lines without the data marker
are ignored. -/
def processLine (o : Serde) (st : AggState) (line : String) : AggState × List Op :=
  match stripData line with
  | some data => processData o st data
  | none => (st, [])

/-- The aggregator run over a sequence of decoded payloads, accumulating the
operation trace. -/
def runData (o : Serde) (st : AggState) : List String → AggState × List Op
  | [] => (st, [])
  | d :: rest =>
      let r := processData o st d
      let r2 := runData o r.1 rest
      (r2.1, r.2 ++ r2.2)

/-- The SSE loop over the results of `reader.lines()`: the first read failure
aborts the whole call with `Read error: e` (client.rs lines 273-274). -/
def runLines (o : Serde) (st : AggState) : List (Except String String) → Except String (AggState × List Op)
  | [] => Except.ok (st, [])
  | Except.error e :: _ => Except.error ("Read error: " ++ e)
  | Except.ok line :: rest =>
      let r := processLine o st line
      match runLines o r.1 rest with
      | Except.error e => Except.error e
      | Except.ok r2 => Except.ok (r2.1, r.2 ++ r2.2)

/-- The SSE-decoding part of `send_messages_streaming` (client.rs lines
262-338): on success the accumulated locals are packaged into a
`ChatResponse`; a read failure is propagated and no response is built. -/
def send_messages_streaming (o : Serde) (lines : List (Except String String)) :
    Except String ChatResponse :=
  match runLines o initState lines with
  | Except.error e => Except.error e
  | Except.ok r =>
      Except.ok { text := r.1.full_text, stop_reason := r.1.stop_reason, tool_calls := r.1.tool_calls }

/-- The aggregator at the payload level, packaging the final state into the
round's `ChatResponse`. -/
def aggregate (o : Serde) (datas : List String) : ChatResponse :=
  let r := runData o initState datas
  { text := r.1.full_text, stop_reason := r.1.stop_reason, tool_calls := r.1.tool_calls }

/-- Model of `trait ToolExecutor` from tools/mod.rs, as a record of capabilities. -/
structure ToolExecutor where
  name : String
  definition : Tool
  execute : Json → Except String String

/-- The `HashMap::insert` semantics on an association list: overwrite the entry
with the same key, otherwise add a fresh entry. -/
def insertKeyed (m : List (String × ToolExecutor)) (k : String) (v : ToolExecutor) :
    List (String × ToolExecutor) :=
  match m with
  | [] => [(k, v)]
  | (k0, v0) :: rest => if k0 = k then (k, v) :: rest else (k0, v0) :: insertKeyed rest k v

/-- Model of `struct ToolRegistry` from tools/registry.rs. -/
structure ToolRegistry where
  tools : List (String × ToolExecutor)

/-- Model of `ToolRegistry::new`. -/
def ToolRegistry.new : ToolRegistry := ⟨[]⟩

/-- Model of `ToolRegistry::register`: inserts under `tool.name()`, overwriting. -/
def ToolRegistry.register (r : ToolRegistry) (tool : ToolExecutor) : ToolRegistry :=
  ⟨insertKeyed r.tools tool.name tool⟩

/-- Model of `ToolRegistry::definitions`. -/
def ToolRegistry.definitions (r : ToolRegistry) : List Tool :=
  r.tools.map (fun p => p.2.definition)

/-- Model of `ToolRegistry::execute` (tools/registry.rs lines 40-45): exact-name
lookup; absent name fails with the `Unknown tool` message, otherwise the
executor's own result is returned unchanged. -/
def ToolRegistry.execute (r : ToolRegistry) (name : String) (input : Json) :
    Except String String :=
  match List.lookup name r.tools with
  | some tool => tool.execute input
  | none => Except.error ("Unknown tool: " ++ name)

/-- Model of `eval_streaming` from main.rs (lines 147-193): sends the round, and on
success returns `response.text`, discarding `response.tool_calls`; on failure
returns the error text.  The registry is consulted only for
`registry.definitions()` (placed in the request by the transport
collaborator); `registry.execute` is never invoked and no second round
occurs. -/
def eval_streaming (o : Serde) (registry : ToolRegistry)
    (lines : List (Except String String)) : String :=
  let _defs := registry.definitions
  match send_messages_streaming o lines with
  | Except.ok response => response.text
  | Except.error e => "Error: " ++ e

/-- What the `content_block_start` branch extracts from a payload: the id and
name options of a started `tool_use` block, when the branch fires. -/
def startToolUseOf (o : Serde) (data : String) : Option (Option String × Option String) :=
  match o.parseContentBlockStart data with
  | some event =>
      if event.event_type = "content_block_start" then
        match event.content_block with
        | some block =>
            if block.block_type = "tool_use" then some (block.id, block.name) else none
        | none => none
      else none
  | none => none

/-- The text fragment the `content_block_delta` branch extracts, if any. -/
def textFragOf (o : Serde) (data : String) : Option String :=
  match o.parseContentBlockDelta data with
  | some event =>
      if event.event_type = "content_block_delta" then
        match event.delta with
        | some delta => delta.text
        | none => none
      else none
  | none => none

/-- The partial-JSON fragment the `content_block_delta` branch extracts, if any. -/
def jsonFragOf (o : Serde) (data : String) : Option String :=
  match o.parseContentBlockDelta data with
  | some event =>
      if event.event_type = "content_block_delta" then
        match event.delta with
        | some delta => delta.partial_json
        | none => none
      else none
  | none => none

/-- The stop reason the `message_delta` branch extracts, if any. -/
def stopReasonOf (o : Serde) (data : String) : Option String :=
  match o.parseMessageDelta data with
  | some event =>
      if event.event_type = "message_delta" then
        match event.delta with
        | some d => d.stop_reason
        | none => none
      else none
  | none => none

/-- The finalization performed at a block-stop line: both open slots are
cleared unconditionally; if both were set, the buffer is parsed (empty object
on failure), the call is appended and the buffer cleared. -/
def finalizeStop (pj : String → Option Json) (st : AggState) : AggState :=
  match st.current_tool_id, st.current_tool_name with
  | some i, some n =>
      { st with tool_calls := st.tool_calls ++ [⟨i, n, (pj st.current_tool_json).getD Json.emptyObj⟩]
                current_tool_id := none
                current_tool_name := none
                current_tool_json := "" }
  | _, _ => { st with current_tool_id := none, current_tool_name := none }

theorem startStep_eq (o : Serde) (data : String) (st : AggState) :
    startStep o data st =
      match startToolUseOf o data with
      | some p => { st with current_tool_id := p.1, current_tool_name := p.2, current_tool_json := "" }
      | none => st := by
  unfold startStep startToolUseOf
  cases o.parseContentBlockStart data with
  | none => rfl
  | some event =>
      by_cases h : event.event_type = "content_block_start"
      · simp only [if_pos h]
        cases event.content_block with
        | none => rfl
        | some block =>
            by_cases h2 : block.block_type = "tool_use"
            · simp [if_pos h2]
            · simp [if_neg h2]
      · simp [if_neg h]

theorem deltaStep_eq (o : Serde) (data : String) (st : AggState) :
    deltaStep o data st =
      (let r1 :=
        match textFragOf o data with
        | some t => ({ st with full_text := st.full_text ++ t }, [Op.sink t, Op.append t])
        | none => (st, ([] : List Op))
       match jsonFragOf o data with
       | some j => ({ r1.1 with current_tool_json := r1.1.current_tool_json ++ j }, r1.2)
       | none => r1) := by
  unfold deltaStep textFragOf jsonFragOf
  cases o.parseContentBlockDelta data with
  | none => rfl
  | some event =>
      by_cases h : event.event_type = "content_block_delta"
      · simp only [if_pos h]
        cases event.delta with
        | none => rfl
        | some delta =>
            obtain ⟨dt, dtext, dpj⟩ := delta
            cases dtext <;> cases dpj <;> rfl
      · simp only [if_neg h]

theorem stopStep_eq (o : Serde) (data : String) (st : AggState) :
    stopStep o data st =
      if strContains data stopMarker then finalizeStop o.parseValue st else st := by
  unfold stopStep finalizeStop
  obtain ⟨ft, sr, tc, tid, tname, tjson⟩ := st
  by_cases h : strContains data stopMarker
  · simp only [if_pos h]
  · simp [if_neg h]

theorem messageDeltaStep_eq (o : Serde) (data : String) (st : AggState) :
    messageDeltaStep o data st =
      match stopReasonOf o data with
      | some reason => { st with stop_reason := reason }
      | none => st := by
  unfold messageDeltaStep stopReasonOf
  cases o.parseMessageDelta data with
  | none => rfl
  | some event =>
      by_cases h : event.event_type = "message_delta"
      · simp only [if_pos h]
        cases event.delta with
        | none => rfl
        | some d => cases d.stop_reason <;> rfl
      · simp [if_neg h]

theorem startStep_full_text (o : Serde) (data : String) (st : AggState) :
    (startStep o data st).full_text = st.full_text := by
  rw [startStep_eq]; cases startToolUseOf o data <;> rfl

theorem startStep_stop_reason (o : Serde) (data : String) (st : AggState) :
    (startStep o data st).stop_reason = st.stop_reason := by
  rw [startStep_eq]; cases startToolUseOf o data <;> rfl

theorem startStep_tool_calls (o : Serde) (data : String) (st : AggState) :
    (startStep o data st).tool_calls = st.tool_calls := by
  rw [startStep_eq]; cases startToolUseOf o data <;> rfl

theorem deltaStep_snd (o : Serde) (data : String) (st : AggState) :
    (deltaStep o data st).2 =
      match textFragOf o data with
      | some t => [Op.sink t, Op.append t]
      | none => [] := by
  rw [deltaStep_eq]; cases textFragOf o data <;> cases jsonFragOf o data <;> rfl

theorem deltaStep_full_text (o : Serde) (data : String) (st : AggState) :
    (deltaStep o data st).1.full_text = st.full_text ++ (textFragOf o data).getD ("") := by
  rw [deltaStep_eq]
  cases textFragOf o data <;> cases jsonFragOf o data <;> simp

theorem deltaStep_stop_reason (o : Serde) (data : String) (st : AggState) :
    (deltaStep o data st).1.stop_reason = st.stop_reason := by
  rw [deltaStep_eq]; cases textFragOf o data <;> cases jsonFragOf o data <;> rfl

theorem deltaStep_tool_calls (o : Serde) (data : String) (st : AggState) :
    (deltaStep o data st).1.tool_calls = st.tool_calls := by
  rw [deltaStep_eq]; cases textFragOf o data <;> cases jsonFragOf o data <;> rfl

theorem deltaStep_current_tool_id (o : Serde) (data : String) (st : AggState) :
    (deltaStep o data st).1.current_tool_id = st.current_tool_id := by
  rw [deltaStep_eq]; cases textFragOf o data <;> cases jsonFragOf o data <;> rfl

theorem deltaStep_current_tool_name (o : Serde) (data : String) (st : AggState) :
    (deltaStep o data st).1.current_tool_name = st.current_tool_name := by
  rw [deltaStep_eq]; cases textFragOf o data <;> cases jsonFragOf o data <;> rfl

theorem deltaStep_current_tool_json (o : Serde) (data : String) (st : AggState) :
    (deltaStep o data st).1.current_tool_json =
      st.current_tool_json ++ (jsonFragOf o data).getD ("") := by
  rw [deltaStep_eq]
  cases textFragOf o data <;> cases jsonFragOf o data <;> simp

theorem stopStep_full_text (o : Serde) (data : String) (st : AggState) :
    (stopStep o data st).full_text = st.full_text := by
  rw [stopStep_eq]
  by_cases h : strContains data stopMarker
  · simp only [if_pos h]
    unfold finalizeStop
    cases st.current_tool_id <;> cases st.current_tool_name <;> rfl
  · simp [if_neg h]

theorem stopStep_stop_reason (o : Serde) (data : String) (st : AggState) :
    (stopStep o data st).stop_reason = st.stop_reason := by
  rw [stopStep_eq]
  by_cases h : strContains data stopMarker
  · simp only [if_pos h]
    unfold finalizeStop
    cases st.current_tool_id <;> cases st.current_tool_name <;> rfl
  · simp [if_neg h]

theorem messageDeltaStep_stop_reason (o : Serde) (data : String) (st : AggState) :
    (messageDeltaStep o data st).stop_reason = (stopReasonOf o data).getD st.stop_reason := by
  rw [messageDeltaStep_eq]; cases stopReasonOf o data <;> simp

theorem messageDeltaStep_full_text (o : Serde) (data : String) (st : AggState) :
    (messageDeltaStep o data st).full_text = st.full_text := by
  rw [messageDeltaStep_eq]; cases stopReasonOf o data <;> rfl

theorem messageDeltaStep_tool_calls (o : Serde) (data : String) (st : AggState) :
    (messageDeltaStep o data st).tool_calls = st.tool_calls := by
  rw [messageDeltaStep_eq]; cases stopReasonOf o data <;> rfl

theorem messageDeltaStep_current_tool_id (o : Serde) (data : String) (st : AggState) :
    (messageDeltaStep o data st).current_tool_id = st.current_tool_id := by
  rw [messageDeltaStep_eq]; cases stopReasonOf o data <;> rfl

theorem messageDeltaStep_current_tool_name (o : Serde) (data : String) (st : AggState) :
    (messageDeltaStep o data st).current_tool_name = st.current_tool_name := by
  rw [messageDeltaStep_eq]; cases stopReasonOf o data <;> rfl

theorem messageDeltaStep_current_tool_json (o : Serde) (data : String) (st : AggState) :
    (messageDeltaStep o data st).current_tool_json = st.current_tool_json := by
  rw [messageDeltaStep_eq]; cases stopReasonOf o data <;> rfl

theorem processData_snd (o : Serde) (st : AggState) (data : String) :
    (processData o st data).2 =
      if data = "[DONE]" then []
      else
        match textFragOf o data with
        | some t => [Op.sink t, Op.append t]
        | none => [] := by
  unfold processData
  by_cases hd : data = "[DONE]"
  · simp [hd]
  · simp only [if_neg hd]
    exact deltaStep_snd o data (startStep o data st)

theorem processData_full_text (o : Serde) (st : AggState) (data : String) :
    (processData o st data).1.full_text =
      st.full_text ++ (if data = "[DONE]" then ("") else (textFragOf o data).getD ("")) := by
  unfold processData
  by_cases hd : data = "[DONE]"
  · simp [hd]
  · simp only [if_neg hd]
    rw [messageDeltaStep_full_text, stopStep_full_text, deltaStep_full_text, startStep_full_text]

theorem processData_stop_reason (o : Serde) (st : AggState) (data : String) :
    (processData o st data).1.stop_reason =
      if data = "[DONE]" then st.stop_reason
      else (stopReasonOf o data).getD st.stop_reason := by
  unfold processData
  by_cases hd : data = "[DONE]"
  · simp [hd]
  · simp only [if_neg hd]
    rw [messageDeltaStep_stop_reason, stopStep_stop_reason, deltaStep_stop_reason,
      startStep_stop_reason]

/-- Concatenation of a list of strings in order (the spec's "exact
concatenation of all text-delta fragments in arrival order"). -/
def strConcat : List String → String
  | [] => ""
  | s :: rest => s ++ strConcat rest

/-- The text-delta fragments of an event sequence, in arrival order: the
fragment a `content_block_delta` event carries in its `delta.text` field,
with the `[DONE]` terminator producing no event. -/
def textFragments (o : Serde) (datas : List String) : List String :=
  datas.filterMap (fun d => if d = "[DONE]" then none else textFragOf o d)

/-- The stop reasons carried by `message_delta` events of a sequence, in
arrival order. -/
def stopReasons (o : Serde) (datas : List String) : List String :=
  datas.filterMap (fun d => if d = "[DONE]" then none else stopReasonOf o d)

theorem runData_trace_and_text (o : Serde) (datas : List String) (st : AggState) :
    (runData o st datas).2 =
        (textFragments o datas).flatMap (fun t => [Op.sink t, Op.append t])
      ∧ (runData o st datas).1.full_text = st.full_text ++ strConcat (textFragments o datas) := by
  induction datas generalizing st with
  | nil => simp [runData, textFragments, strConcat]
  | cons d rest ih =>
      obtain ⟨ih1, ih2⟩ := ih (processData o st d).1
      constructor
      · show (processData o st d).2 ++ (runData o (processData o st d).1 rest).2 = _
        rw [ih1, processData_snd]
        by_cases hd : d = "[DONE]"
        · simp [textFragments, hd]
        · simp only [textFragments, List.filterMap_cons, if_neg hd]
          cases textFragOf o d <;> simp [textFragments]
      · show (runData o (processData o st d).1 rest).1.full_text = _
        rw [ih2, processData_full_text]
        by_cases hd : d = "[DONE]"
        · simp [textFragments, hd]
        · simp only [textFragments, List.filterMap_cons, if_neg hd]
          cases textFragOf o d <;> simp [textFragments, strConcat, String.append_assoc]

theorem runData_stop_reason (o : Serde) (datas : List String) (st : AggState) :
    (runData o st datas).1.stop_reason = ((stopReasons o datas).getLast?).getD st.stop_reason := by
  induction datas generalizing st with
  | nil => simp [runData, stopReasons]
  | cons d rest ih =>
      show (runData o (processData o st d).1 rest).1.stop_reason = _
      rw [ih, processData_stop_reason]
      by_cases hd : d = "[DONE]"
      · simp [stopReasons, hd]
      · simp only [stopReasons, List.filterMap_cons, if_neg hd]
        cases hr : stopReasonOf o d with
        | none => simp [stopReasons]
        | some r =>
            simp only [Option.getD_some, stopReasons]
            cases hl : (rest.filterMap (fun d => if d = "[DONE]" then none else stopReasonOf o d)).getLast? with
            | none =>
                have : rest.filterMap (fun d => if d = "[DONE]" then none else stopReasonOf o d) = [] := by
                  cases hc : rest.filterMap (fun d => if d = "[DONE]" then none else stopReasonOf o d) with
                  | nil => rfl
                  | cons x xs => rw [hc] at hl; simp [List.getLast?] at hl
                rw [this]
                simp [List.getLast?]
            | some y =>
                cases hc : rest.filterMap (fun d => if d = "[DONE]" then none else stopReasonOf o d) with
                | nil => rw [hc] at hl; simp at hl
                | cons x xs =>
                    rw [hc] at hl
                    rw [List.getLast?_cons_cons, hl]
                    simp

/-- Claim C1: for every sequence of decoded events, the aggregator invokes the
caller-supplied chunk sink exactly once per text-delta fragment, in arrival
order, before appending the fragment to the accumulated text (the operation
trace is exactly `sink t` followed by `append t` for each fragment `t` in
arrival order), and the final `ChatResponse.text` is the exact concatenation
of all text-delta fragments in arrival order, for any split of the text. -/
theorem C1_sink_order_and_text_concatenation (o : Serde) (datas : List String) :
    (runData o initState datas).2 =
        (textFragments o datas).flatMap (fun t => [Op.sink t, Op.append t])
      ∧ (aggregate o datas).text = strConcat (textFragments o datas) := by
  obtain ⟨h1, h2⟩ := runData_trace_and_text o datas initState
  refine ⟨h1, ?_⟩
  show (runData o initState datas).1.full_text = _
  rw [h2]
  simp [initState]

/-- Claim C7: with no `message_delta` event carrying a stop reason the final
`ChatResponse.stop_reason` is `"unknown"`; each carried stop reason overwrites
the current value (the last one wins) and a `message_delta` without a stop
reason changes nothing — all captured by: the final stop reason is the last
carried stop reason, defaulting to `"unknown"`. -/
theorem C7_stop_reason_default_and_last_wins (o : Serde) (datas : List String) :
    (aggregate o datas).stop_reason = ((stopReasons o datas).getLast?).getD ("unknown") := by
  show (runData o initState datas).1.stop_reason = _
  rw [runData_stop_reason]
  rfl

/-- Claim C6: `ToolRegistry::execute` fails with an error naming the requested
tool when no executor is registered under exactly that name, and otherwise
returns the registered executor's own `Result` unchanged — both the `Ok` and
the `Err` case are returned as data (the function is total and never raises). -/
theorem C6_registry_execute (r : ToolRegistry) (name : String) (input : Json) :
    (List.lookup name r.tools = none →
        r.execute name input = Except.error ("Unknown tool: " ++ name))
  ∧ (∀ t : ToolExecutor, List.lookup name r.tools = some t →
        r.execute name input = t.execute input) := by
  constructor
  · intro h
    unfold ToolRegistry.execute
    rw [h]
  · intro t h
    unfold ToolRegistry.execute
    rw [h]

/-- A sample executor whose execution succeeds. -/
def echoTool : ToolExecutor :=
  { name := "echo"
    definition := { name := "echo", description := "echoes back", input_schema := Json.emptyObj }
    execute := fun _ => Except.ok ("echoed") }

/-- A sample executor whose execution fails with an error value. -/
def failTool : ToolExecutor :=
  { name := "fails"
    definition := { name := "fails", description := "always fails", input_schema := Json.emptyObj }
    execute := fun _ => Except.error ("boom") }

/-- A sample registry holding the two executors above. -/
def demoRegistry : ToolRegistry :=
  (ToolRegistry.new.register echoTool).register failTool

/-- Witness for C6: on the sample registry, an unregistered name fails with
the `Unknown tool` message, a succeeding executor's `Ok` is passed through,
and a failing executor's `Err` is passed through as data. -/
theorem C6_registry_execute_witness :
    demoRegistry.execute ("nonexistent") Json.emptyObj = Except.error ("Unknown tool: nonexistent")
  ∧ demoRegistry.execute ("echo") Json.emptyObj = Except.ok ("echoed")
  ∧ demoRegistry.execute ("fails") Json.emptyObj = Except.error ("boom") := by
  refine ⟨?_, ?_, ?_⟩
  · exact (C6_registry_execute demoRegistry ("nonexistent") Json.emptyObj).1 rfl
  · exact (C6_registry_execute demoRegistry ("echo") Json.emptyObj).2 echoTool rfl
  · exact (C6_registry_execute demoRegistry ("fails") Json.emptyObj).2 failTool rfl

theorem runLines_ok_then_error (o : Serde) (e : String)
    (post : List (Except String String)) :
    ∀ (pre : List (Except String String)) (st : AggState),
      (∀ x ∈ pre, ∃ s, x = Except.ok s) →
      runLines o st (pre ++ Except.error e :: post) = Except.error ("Read error: " ++ e) := by
  intro pre
  induction pre with
  | nil => intro st _; rfl
  | cons x xs ih =>
      intro st hx
      obtain ⟨s, rfl⟩ := hx x (by simp)
      show (match runLines o (processLine o st s).1 (xs ++ Except.error e :: post) with
            | Except.error e2 => Except.error e2
            | Except.ok r2 => Except.ok (r2.1, (processLine o st s).2 ++ r2.2)) = _
      rw [ih (processLine o st s).1 (fun y hy => hx y (by simp [hy]))]

/-- Claim C9: if reading a line from the underlying transport fails, the
whole call returns an error and no `ChatResponse` is produced, no matter how
much text, tool-call or stop-reason state had accumulated over the earlier,
successfully read lines. -/
theorem C9_read_error_no_partial_response (o : Serde)
    (pre : List (Except String String)) (e : String)
    (post : List (Except String String)) :
    (∀ x ∈ pre, ∃ s, x = Except.ok s) →
    send_messages_streaming o (pre ++ Except.error e :: post) =
      Except.error ("Read error: " ++ e) := by
  intro hpre
  unfold send_messages_streaming
  rw [runLines_ok_then_error o e post pre initState hpre]

/-- Sample wire payload: a `content_block_start` opening a `tool_use` block
with id `t1` and name `get_current_time`. -/
def dStartTool : String :=
  "\x7b\"type\":\"content_block_start\",\"index\":0,\"content_block\":\x7b\"type\":\"tool_use\",\"id\":\"t1\",\"name\":\"get_current_time\"\x7d\x7d"

/-- Sample wire payload: a `content_block_start` opening a text block. -/
def dStartText : String :=
  "\x7b\"type\":\"content_block_start\",\"index\":0,\"content_block\":\x7b\"type\":\"text\"\x7d\x7d"

/-- Sample wire payload: a text delta carrying the fragment `Hel`. -/
def dTextHel : String :=
  "\x7b\"type\":\"content_block_delta\",\"index\":0,\"delta\":\x7b\"type\":\"text_delta\",\"text\":\"Hel\"\x7d\x7d"

/-- Sample wire payload: a text delta carrying the fragment `lo`. -/
def dTextLo : String :=
  "\x7b\"type\":\"content_block_delta\",\"index\":0,\"delta\":\x7b\"type\":\"text_delta\",\"text\":\"lo\"\x7d\x7d"

/-- Sample wire payload: a partial-JSON delta carrying the opening brace. -/
def dJsonOpen : String :=
  "\x7b\"type\":\"content_block_delta\",\"index\":1,\"delta\":\x7b\"type\":\"input_json_delta\",\"partial_json\":\"\x7b\"\x7d\x7d"

/-- Sample wire payload: a partial-JSON delta carrying the closing brace. -/
def dJsonClose : String :=
  "\x7b\"type\":\"content_block_delta\",\"index\":1,\"delta\":\x7b\"type\":\"input_json_delta\",\"partial_json\":\"\x7d\"\x7d\x7d"

/-- Sample wire payload: a `content_block_start` of kind `tool_use` that
omits the `id` field. -/
def dStartNoId : String :=
  "\x7b\"type\":\"content_block_start\",\"index\":0,\"content_block\":\x7b\"type\":\"tool_use\",\"name\":\"get_current_time\"\x7d\x7d"

/-- Sample wire payload: a `content_block_delta` whose delta carries both a
text fragment and a partial-JSON fragment, and whose (ignored) extra field
contains the `content_block_stop` marker as structural JSON text. -/
def dBothDelta : String :=
  "\x7b\"type\":\"content_block_delta\",\"index\":0,\"delta\":\x7b\"type\":\"text_delta\",\"text\":\"a\",\"partial_json\":\"\x7d\"\x7d,\"pad\":\x7b\"type\":\"content_block_stop\"\x7d\x7d"

/-- Sample wire payload: a `content_block_stop`. -/
def dStop : String :=
  "\x7b\"type\":\"content_block_stop\",\"index\":0\x7d"

/-- Sample wire payload: a `message_delta` carrying stop reason `tool_use`. -/
def dMsgToolUse : String :=
  "\x7b\"type\":\"message_delta\",\"delta\":\x7b\"stop_reason\":\"tool_use\"\x7d\x7d"

/-- A serde oracle giving each sample payload exactly the parse results
`serde_json::from_str` would produce on it for each of the four target
shapes (derived structs ignore unknown fields and error on missing
non-optional fields, so e.g. a start payload also parses as the delta and
message-delta shapes with an absent `delta` field, while the message-delta
payload fails the two block shapes for lack of an `index` field), and
parsing only the complete buffer of the two brace fragments as a JSON
value. -/
def demoSerde : Serde :=
  { parseContentBlockStart := fun d =>
      if d = dStartTool then
        some ⟨"content_block_start", 0, some ⟨"tool_use", some ("t1"), some ("get_current_time")⟩⟩
      else if d = dStartText then some ⟨"content_block_start", 0, some ⟨"text", none, none⟩⟩
      else if d = dStartNoId then
        some ⟨"content_block_start", 0, some ⟨"tool_use", none, some ("get_current_time")⟩⟩
      else if d = dBothDelta then some ⟨"content_block_delta", 0, none⟩
      else if d = dTextHel then some ⟨"content_block_delta", 0, none⟩
      else if d = dTextLo then some ⟨"content_block_delta", 0, none⟩
      else if d = dJsonOpen then some ⟨"content_block_delta", 1, none⟩
      else if d = dJsonClose then some ⟨"content_block_delta", 1, none⟩
      else if d = dStop then some ⟨"content_block_stop", 0, none⟩
      else none
    parseContentBlockDelta := fun d =>
      if d = dBothDelta then
        some ⟨"content_block_delta", 0, some ⟨"text_delta", some ("a"), some ("\x7d")⟩⟩
      else if d = dStartNoId then some ⟨"content_block_start", 0, none⟩
      else if d = dTextHel then some ⟨"content_block_delta", 0, some ⟨"text_delta", some ("Hel"), none⟩⟩
      else if d = dTextLo then some ⟨"content_block_delta", 0, some ⟨"text_delta", some ("lo"), none⟩⟩
      else if d = dJsonOpen then
        some ⟨"content_block_delta", 1, some ⟨"input_json_delta", none, some ("\x7b")⟩⟩
      else if d = dJsonClose then
        some ⟨"content_block_delta", 1, some ⟨"input_json_delta", none, some ("\x7d")⟩⟩
      else if d = dStartTool then some ⟨"content_block_start", 0, none⟩
      else if d = dStartText then some ⟨"content_block_start", 0, none⟩
      else if d = dStop then some ⟨"content_block_stop", 0, none⟩
      else none
    parseMessageDelta := fun d =>
      if d = dMsgToolUse then some ⟨"message_delta", some ⟨some ("tool_use")⟩⟩
      else if d = dStartNoId then some ⟨"content_block_start", none⟩
      else if d = dBothDelta then some ⟨"content_block_delta", some ⟨none⟩⟩
      else if d = dStartTool then some ⟨"content_block_start", none⟩
      else if d = dStartText then some ⟨"content_block_start", none⟩
      else if d = dTextHel then some ⟨"content_block_delta", none⟩
      else if d = dTextLo then some ⟨"content_block_delta", none⟩
      else if d = dJsonOpen then some ⟨"content_block_delta", none⟩
      else if d = dJsonClose then some ⟨"content_block_delta", none⟩
      else if d = dStop then some ⟨"content_block_stop", none⟩
      else none
    parseValue := fun s => if s = "\x7b\x7d" then some Json.emptyObj else none }

/-- Witness for C9: a stream that has already accumulated the text fragment
`Hel` still yields only the read error once the transport fails. -/
theorem C9_read_error_witness :
    send_messages_streaming demoSerde
        [Except.ok ("data: " ++ dTextHel), Except.error ("boom")] =
      Except.error ("Read error: boom") := by
  have h := C9_read_error_no_partial_response demoSerde
    [Except.ok ("data: " ++ dTextHel)] "boom" []
    (by intro x hx; simp at hx; exact ⟨"data: " ++ dTextHel, hx⟩)
  exact h

/-- A serde oracle on which every parse attempt fails. -/
def noneSerde : Serde :=
  { parseContentBlockStart := fun _ => none
    parseContentBlockDelta := fun _ => none
    parseMessageDelta := fun _ => none
    parseValue := fun _ => none }

/-- A truncated, invalid-JSON payload that nevertheless contains the
`content_block_stop` marker substring. -/
def badStopData : String := "\x7b\"type\":\"content_block_stop\""

/-- An aggregator state in which a tool call is open. -/
def openToolState : AggState :=
  { full_text := ""
    stop_reason := "unknown"
    tool_calls := []
    current_tool_id := some ("t1")
    current_tool_name := some ("get_current_time")
    current_tool_json := "\x7b\x7d" }

/-- Counterexample to claim C2: the payload fails to parse against every
known event shape, yet processing it from a state with an open tool call
finalizes that tool call — the aggregator state changes (the line is not
skipped), because the `content_block_stop` check is a raw substring search,
not a parse. -/
theorem C2_counterexample_marker_in_unparseable_line :
    noneSerde.parseContentBlockStart badStopData = none
  ∧ noneSerde.parseContentBlockDelta badStopData = none
  ∧ noneSerde.parseMessageDelta badStopData = none
  ∧ (processData noneSerde openToolState badStopData).1.tool_calls.length = 1
  ∧ openToolState.tool_calls.length = 0
  ∧ (processData noneSerde openToolState badStopData).1.current_tool_id = none
  ∧ openToolState.current_tool_id = some ("t1") := by
  exact ⟨rfl, rfl, rfl, rfl, rfl, rfl, rfl⟩

/-- Claim C2 as amended: a data payload that fails to parse against every
known event shape is skipped with no change to any aggregator state and no
transition — provided it does not contain the literal substring
`"type":"content_block_stop"`; a non-parsing payload containing that
substring still triggers the block-stop transition. -/
theorem C2_amended_unparseable_line_skipped (o : Serde) (st : AggState) (data : String) :
    o.parseContentBlockStart data = none →
    o.parseContentBlockDelta data = none →
    o.parseMessageDelta data = none →
    strContains data stopMarker = false →
    processData o st data = (st, []) := by
  intro h1 h2 h3 h4
  have e1 : startStep o data st = st := by unfold startStep; rw [h1]
  have e2 : deltaStep o data st = (st, []) := by unfold deltaStep; rw [h2]
  have e3 : stopStep o data st = st := by unfold stopStep; rw [h4]; simp
  have e4 : messageDeltaStep o data st = st := by unfold messageDeltaStep; rw [h3]
  unfold processData
  by_cases hd : data = "[DONE]"
  · simp [hd]
  · simp only [if_neg hd, e1, e2, e3, e4]

/-- Witness for the amended C2: a garbage line without the stop marker is a
no-op even from a state with an open tool call. -/
theorem C2_amended_witness :
    processData noneSerde openToolState ("not json at all") = (openToolState, []) :=
  C2_amended_unparseable_line_skipped noneSerde openToolState ("not json at all")
    rfl rfl rfl rfl

theorem finalizeStop_some (pj : String → Option Json) (st : AggState) (i n : String)
    (hid : st.current_tool_id = some i) (hn : st.current_tool_name = some n) :
    finalizeStop pj st =
      { st with tool_calls := st.tool_calls ++ [⟨i, n, (pj st.current_tool_json).getD Json.emptyObj⟩]
                current_tool_id := none
                current_tool_name := none
                current_tool_json := "" } := by
  unfold finalizeStop
  rw [hid, hn]

theorem runLines_all_ok (o : Serde) :
    ∀ (lines : List (Except String String)) (st : AggState),
      (∀ x ∈ lines, ∃ s, x = Except.ok s) →
      ∃ r, runLines o st lines = Except.ok r := by
  intro lines
  induction lines with
  | nil => intro st _; exact ⟨(st, []), rfl⟩
  | cons x xs ih =>
      intro st hx
      obtain ⟨s, rfl⟩ := hx x (by simp)
      obtain ⟨r, hr⟩ := ih (processLine o st s).1 (fun y hy => hx y (by simp [hy]))
      refine ⟨(r.1, (processLine o st s).2 ++ r.2), ?_⟩
      show (match runLines o (processLine o st s).1 xs with
            | Except.error e2 => Except.error e2
            | Except.ok r2 => Except.ok (r2.1, (processLine o st s).2 ++ r2.2)) = _
      rw [hr]

/-- Claim C3: when a tool call is open at a `content_block_stop` event and the
accumulated buffer is not valid JSON, the aggregator substitutes the empty
JSON object as the input, appends the finalized `ToolCall` to `tool_calls`,
clears the open slot, and raises no error — any stream of successfully read
lines yields an `Ok` response, so the round completes normally. -/
theorem C3_malformed_tool_json_degrades (o : Serde) (st : AggState) (data : String)
    (i n : String) :
    data ≠ "[DONE]" →
    startToolUseOf o data = none →
    jsonFragOf o data = none →
    strContains data stopMarker = true →
    st.current_tool_id = some i →
    st.current_tool_name = some n →
    o.parseValue st.current_tool_json = none →
    ((processData o st data).1.tool_calls = st.tool_calls ++ [⟨i, n, Json.emptyObj⟩]
      ∧ (processData o st data).1.current_tool_id = none
      ∧ (processData o st data).1.current_tool_name = none
      ∧ (processData o st data).1.current_tool_json = "")
    ∧ ∀ (lines : List (Except String String)),
        (∀ x ∈ lines, ∃ s, x = Except.ok s) →
        ∃ resp, send_messages_streaming o lines = Except.ok resp := by
  intro hd h1 h2 h3 hid hn hpj
  have e1 : startStep o data st = st := by rw [startStep_eq, h1]
  have eid : (deltaStep o data st).1.current_tool_id = some i := by
    rw [deltaStep_current_tool_id, hid]
  have en : (deltaStep o data st).1.current_tool_name = some n := by
    rw [deltaStep_current_tool_name, hn]
  have ej : (deltaStep o data st).1.current_tool_json = st.current_tool_json := by
    rw [deltaStep_current_tool_json, h2]; simp
  have etc : (deltaStep o data st).1.tool_calls = st.tool_calls :=
    deltaStep_tool_calls o data st
  have e3 : stopStep o data (deltaStep o data st).1 =
      { (deltaStep o data st).1 with
            tool_calls := st.tool_calls ++ [⟨i, n, Json.emptyObj⟩]
            current_tool_id := none
            current_tool_name := none
            current_tool_json := "" } := by
    rw [stopStep_eq, if_pos h3, finalizeStop_some o.parseValue _ i n eid en, etc, ej, hpj]
    simp
  have hbody : (processData o st data).1 =
      messageDeltaStep o data (stopStep o data (deltaStep o data (startStep o data st)).1) := by
    unfold processData
    simp only [if_neg hd]
  constructor
  · rw [hbody, e1]
    refine ⟨?_, ?_, ?_, ?_⟩
    · rw [messageDeltaStep_tool_calls, e3]
    · rw [messageDeltaStep_current_tool_id, e3]
    · rw [messageDeltaStep_current_tool_name, e3]
    · rw [messageDeltaStep_current_tool_json, e3]
  · intro lines hlines
    obtain ⟨r, hr⟩ := runLines_all_ok o lines initState hlines
    refine ⟨{ text := r.1.full_text, stop_reason := r.1.stop_reason, tool_calls := r.1.tool_calls }, ?_⟩
    unfold send_messages_streaming
    rw [hr]

/-- An open tool call whose buffer holds the malformed text `{not json`. -/
def malformedOpenState : AggState :=
  { full_text := ""
    stop_reason := "unknown"
    tool_calls := []
    current_tool_id := some ("t1")
    current_tool_name := some ("get_current_time")
    current_tool_json := "\x7bnot json" }

/-- Witness for C3: at a real `content_block_stop` payload the buffer
`{not json` finalizes to the empty object, the call is appended and the open
slot cleared. -/
theorem C3_malformed_tool_json_witness :
    (processData demoSerde malformedOpenState dStop).1.tool_calls =
        [⟨"t1", "get_current_time", Json.emptyObj⟩]
      ∧ (processData demoSerde malformedOpenState dStop).1.current_tool_id = none := by
  have h := C3_malformed_tool_json_degrades demoSerde malformedOpenState dStop
    "t1" "get_current_time" (by decide) rfl rfl (by decide) rfl rfl rfl
  exact ⟨h.1.1, h.1.2.1⟩

theorem finalizeStop_incomplete (pj : String → Option Json) (st : AggState)
    (h : st.current_tool_id = none ∨ st.current_tool_name = none) :
    finalizeStop pj st = { st with current_tool_id := none, current_tool_name := none } := by
  unfold finalizeStop
  obtain ⟨ft, sr, tc, tid, tname, tjson⟩ := st
  rcases h with h | h
  · have h2 : tid = none := h
    subst h2
    cases tname <;> rfl
  · have h2 : tname = none := h
    subst h2
    cases tid <;> rfl

/-- Claim C10: a `content_block_start` of kind `tool_use` that omits the id
or the name opens an incomplete slot (the missing field stays `none`) with a
cleared buffer and appends nothing; while the open slot is incomplete, a
`content_block_stop` (indeed any event that is not a `tool_use` block-start
and carries no partial-JSON fragment) finalizes no `ToolCall` and leaves the
buffer exactly as it was — the buffer is only discarded by a later `tool_use`
block-start, which resets it to empty. -/
theorem C10_incomplete_tool_block (o : Serde) :
    (∀ (st : AggState) (data : String) (p : Option String × Option String),
        data ≠ "[DONE]" →
        startToolUseOf o data = some p →
        jsonFragOf o data = none →
        strContains data stopMarker = false →
        (processData o st data).1.current_tool_id = p.1
      ∧ (processData o st data).1.current_tool_name = p.2
      ∧ (processData o st data).1.current_tool_json = ""
      ∧ (processData o st data).1.tool_calls = st.tool_calls)
  ∧ (∀ (st : AggState) (data : String),
        (st.current_tool_id = none ∨ st.current_tool_name = none) →
        startToolUseOf o data = none →
        jsonFragOf o data = none →
        (processData o st data).1.tool_calls = st.tool_calls
      ∧ (processData o st data).1.current_tool_json = st.current_tool_json) := by
  constructor
  · intro st data p hd h1 h2 h4
    have hstop : ∀ X : AggState, stopStep o data X = X := by
      intro X
      rw [stopStep_eq]
      simp [h4]
    have hbody : (processData o st data).1 =
        messageDeltaStep o data (stopStep o data (deltaStep o data (startStep o data st)).1) := by
      unfold processData
      simp only [if_neg hd]
    have e1 : startStep o data st =
        { st with current_tool_id := p.1, current_tool_name := p.2, current_tool_json := "" } := by
      rw [startStep_eq, h1]
    rw [hbody, e1, hstop]
    refine ⟨?_, ?_, ?_, ?_⟩
    · rw [messageDeltaStep_current_tool_id, deltaStep_current_tool_id]
    · rw [messageDeltaStep_current_tool_name, deltaStep_current_tool_name]
    · rw [messageDeltaStep_current_tool_json, deltaStep_current_tool_json, h2]
      simp
    · rw [messageDeltaStep_tool_calls, deltaStep_tool_calls]
  · intro st data hopen h1 h2
    by_cases hd : data = "[DONE]"
    · unfold processData
      simp [hd]
    · have hbody : (processData o st data).1 =
          messageDeltaStep o data (stopStep o data (deltaStep o data (startStep o data st)).1) := by
        unfold processData
        simp only [if_neg hd]
      have e1 : startStep o data st = st := by rw [startStep_eq, h1]
      have hopen2 : (deltaStep o data st).1.current_tool_id = none
          ∨ (deltaStep o data st).1.current_tool_name = none := by
        rw [deltaStep_current_tool_id, deltaStep_current_tool_name]
        exact hopen
      have ej : (deltaStep o data st).1.current_tool_json = st.current_tool_json := by
        rw [deltaStep_current_tool_json, h2]
        simp
      have etc : (deltaStep o data st).1.tool_calls = st.tool_calls :=
        deltaStep_tool_calls o data st
      rw [hbody, e1]
      by_cases hm : strContains data stopMarker
      · have e3 : stopStep o data (deltaStep o data st).1 =
            { (deltaStep o data st).1 with current_tool_id := none, current_tool_name := none } := by
          rw [stopStep_eq, if_pos hm, finalizeStop_incomplete o.parseValue _ hopen2]
        rw [e3]
        constructor
        · rw [messageDeltaStep_tool_calls]
          exact etc
        · rw [messageDeltaStep_current_tool_json]
          exact ej
      · have e3 : stopStep o data (deltaStep o data st).1 = (deltaStep o data st).1 := by
          rw [stopStep_eq]
          simp [hm]
        rw [e3]
        constructor
        · rw [messageDeltaStep_tool_calls]
          exact etc
        · rw [messageDeltaStep_current_tool_json]
          exact ej

/-- An incomplete open slot (no id) with a stale buffer. -/
def staleOpenState : AggState :=
  { full_text := ""
    stop_reason := "unknown"
    tool_calls := []
    current_tool_id := none
    current_tool_name := some ("get_current_time")
    current_tool_json := "stale" }

/-- Witness for C10: the id-less `tool_use` block-start opens an incomplete
slot with a cleared buffer, and a later `content_block_stop` from such a
state appends no `ToolCall` and leaves the stale buffer in place. -/
theorem C10_incomplete_tool_block_witness :
    ((processData demoSerde initState dStartNoId).1.current_tool_id = none
      ∧ (processData demoSerde initState dStartNoId).1.current_tool_name = some ("get_current_time")
      ∧ (processData demoSerde initState dStartNoId).1.current_tool_json = ""
      ∧ (processData demoSerde initState dStartNoId).1.tool_calls = [])
  ∧ ((processData demoSerde staleOpenState dStop).1.tool_calls = []
      ∧ (processData demoSerde staleOpenState dStop).1.current_tool_json = "stale") := by
  constructor
  · exact (C10_incomplete_tool_block demoSerde).1 initState dStartNoId
      (none, some ("get_current_time")) (by decide) rfl rfl (by decide)
  · exact (C10_incomplete_tool_block demoSerde).2 staleOpenState dStop
      (Or.inl rfl) rfl rfl

/-- A state with an open tool call `t9`/`calc` whose buffer holds the single
opening brace, and one text character already accumulated. -/
def bothDeltaState : AggState :=
  { full_text := "Q"
    stop_reason := "unknown"
    tool_calls := []
    current_tool_id := some ("t9")
    current_tool_name := some ("calc")
    current_tool_json := "\x7b" }

/-- Counterexample to claim C8: the single line `dBothDelta` triggers three
distinct transitions at once — the text-delta transition (text grows from
`Q` to `Qa`, one sink call), the partial-JSON transition (the buffer grows
from the opening brace to a complete object, which is what the finalization
then parses), and the block-stop transition (the open tool call is
finalized), because the delta carries both a `text` and a `partial_json`
field and the raw line contains the `content_block_stop` marker substring in
an ignored extra field. -/
theorem C8_counterexample_multiple_transitions :
    processData demoSerde bothDeltaState dBothDelta =
      ({ full_text := "Qa"
         stop_reason := "unknown"
         tool_calls := [⟨"t9", "calc", Json.emptyObj⟩]
         current_tool_id := none
         current_tool_name := none
         current_tool_json := "" },
       [Op.sink ("a"), Op.append ("a")]) := by
  rfl

/-- Whether the `content_block_start` branch's type guard holds for a line. -/
def startApplies (o : Serde) (data : String) : Bool :=
  match o.parseContentBlockStart data with
  | some event => event.event_type == "content_block_start"
  | none => false

/-- Whether the `content_block_delta` branch's type guard holds for a line. -/
def deltaApplies (o : Serde) (data : String) : Bool :=
  match o.parseContentBlockDelta data with
  | some event => event.event_type == "content_block_delta"
  | none => false

/-- Whether the `message_delta` branch's type guard holds for a line. -/
def msgApplies (o : Serde) (data : String) : Bool :=
  match o.parseMessageDelta data with
  | some event => event.event_type == "message_delta"
  | none => false

/-- Claim C8 as amended: the three type-discriminated transitions
(block-start, block-delta, message-delta) are pairwise exclusive whenever the
successful parses of a line agree on its `type` field (as they do for any
valid JSON line, whose one `type` field feeds all three shapes); however a
single `content_block_delta` carrying both `text` and `partial_json`
performs both the text and the partial-JSON sub-transitions, and the
block-stop transition is keyed on a raw substring test, so it can co-fire
with any of the others (see the counterexample). -/
theorem C8_amended_type_guards_exclusive (o : Serde) (data : String) :
    (∀ e1 e2, o.parseContentBlockStart data = some e1 →
        o.parseContentBlockDelta data = some e2 → e1.event_type = e2.event_type) →
    (∀ e1 e3, o.parseContentBlockStart data = some e1 →
        o.parseMessageDelta data = some e3 → e1.event_type = e3.event_type) →
    (∀ e2 e3, o.parseContentBlockDelta data = some e2 →
        o.parseMessageDelta data = some e3 → e2.event_type = e3.event_type) →
    ¬(startApplies o data = true ∧ deltaApplies o data = true)
  ∧ ¬(startApplies o data = true ∧ msgApplies o data = true)
  ∧ ¬(deltaApplies o data = true ∧ msgApplies o data = true) := by
  intro h12 h13 h23
  refine ⟨?_, ?_, ?_⟩
  · rintro ⟨ha, hb⟩
    unfold startApplies at ha
    unfold deltaApplies at hb
    cases hp1 : o.parseContentBlockStart data with
    | none => rw [hp1] at ha; exact absurd ha (by simp)
    | some e1 =>
        cases hp2 : o.parseContentBlockDelta data with
        | none => rw [hp2] at hb; exact absurd hb (by simp)
        | some e2 =>
            rw [hp1] at ha
            rw [hp2] at hb
            have ha2 : e1.event_type = "content_block_start" := by
              simpa using ha
            have hb2 : e2.event_type = "content_block_delta" := by
              simpa using hb
            have := h12 e1 e2 hp1 hp2
            rw [ha2, hb2] at this
            exact absurd this (by decide)
  · rintro ⟨ha, hb⟩
    unfold startApplies at ha
    unfold msgApplies at hb
    cases hp1 : o.parseContentBlockStart data with
    | none => rw [hp1] at ha; exact absurd ha (by simp)
    | some e1 =>
        cases hp3 : o.parseMessageDelta data with
        | none => rw [hp3] at hb; exact absurd hb (by simp)
        | some e3 =>
            rw [hp1] at ha
            rw [hp3] at hb
            have ha2 : e1.event_type = "content_block_start" := by
              simpa using ha
            have hb2 : e3.event_type = "message_delta" := by
              simpa using hb
            have := h13 e1 e3 hp1 hp3
            rw [ha2, hb2] at this
            exact absurd this (by decide)
  · rintro ⟨ha, hb⟩
    unfold deltaApplies at ha
    unfold msgApplies at hb
    cases hp2 : o.parseContentBlockDelta data with
    | none => rw [hp2] at ha; exact absurd ha (by simp)
    | some e2 =>
        cases hp3 : o.parseMessageDelta data with
        | none => rw [hp3] at hb; exact absurd hb (by simp)
        | some e3 =>
            rw [hp2] at ha
            rw [hp3] at hb
            have ha2 : e2.event_type = "content_block_delta" := by
              simpa using ha
            have hb2 : e3.event_type = "message_delta" := by
              simpa using hb
            have := h23 e2 e3 hp2 hp3
            rw [ha2, hb2] at this
            exact absurd this (by decide)

/-- Witness for the amended C8: on the text-delta sample line, whose three
successful parses all agree on the type field, only the block-delta guard
holds. -/
theorem C8_amended_witness :
    ¬(startApplies demoSerde dTextHel = true ∧ deltaApplies demoSerde dTextHel = true)
  ∧ ¬(startApplies demoSerde dTextHel = true ∧ msgApplies demoSerde dTextHel = true)
  ∧ ¬(deltaApplies demoSerde dTextHel = true ∧ msgApplies demoSerde dTextHel = true) := by
  refine C8_amended_type_guards_exclusive demoSerde dTextHel ?_ ?_ ?_
  · intro e1 e2 h1 h2
    have h1b : some (⟨"content_block_delta", 0, none⟩ : StreamContentBlockStart) = some e1 := h1
    have h2b : some (⟨"content_block_delta", 0,
        some ⟨"text_delta", some ("Hel"), none⟩⟩ : StreamContentBlockDelta) = some e2 := h2
    cases Option.some.inj h1b
    cases Option.some.inj h2b
    rfl
  · intro e1 e3 h1 h3
    have h1b : some (⟨"content_block_delta", 0, none⟩ : StreamContentBlockStart) = some e1 := h1
    have h3b : some (⟨"content_block_delta", none⟩ : StreamMessageDelta) = some e3 := h3
    cases Option.some.inj h1b
    cases Option.some.inj h3b
    rfl
  · intro e2 e3 h2 h3
    have h2b : some (⟨"content_block_delta", 0,
        some ⟨"text_delta", some ("Hel"), none⟩⟩ : StreamContentBlockDelta) = some e2 := h2
    have h3b : some (⟨"content_block_delta", none⟩ : StreamMessageDelta) = some e3 := h3
    cases Option.some.inj h2b
    cases Option.some.inj h3b
    rfl

/-- A transport line stream for one round in which the model requests the
tool `get_current_time` (id `t1`) and stops with reason `tool_use`. -/
def toolRoundLines : List (Except String String) :=
  [Except.ok ("data: " ++ dStartTool),
   Except.ok ("data: " ++ dStop),
   Except.ok ("data: " ++ dMsgToolUse)]

/-- Claim C5 concerns the tool-use orchestration loop with its round limit
and `ToolLoopExceeded` failure.  The observed driver has no such loop: on a
round whose `ChatResponse` carries a tool call and stop reason `tool_use`,
`eval_streaming` returns just `response.text` — for every registry, so no
executor is ever invoked, no follow-up round is sent, and no round limit or
`ToolLoopExceeded` error exists anywhere in the code. -/
theorem C5_driver_discards_tool_calls :
    send_messages_streaming demoSerde toolRoundLines =
      Except.ok { text := ""
                  stop_reason := "tool_use"
                  tool_calls := [⟨"t1", "get_current_time", Json.emptyObj⟩] }
  ∧ ∀ registry : ToolRegistry, eval_streaming demoSerde registry toolRoundLines = "" := by
  exact ⟨rfl, fun registry => rfl⟩

theorem toolFields_start (o : Serde) (st : AggState) (data : String)
    (p : Option String × Option String) (hd : data ≠ "[DONE]")
    (h1 : startToolUseOf o data = some p) (h2 : jsonFragOf o data = none)
    (h4 : strContains data stopMarker = false) :
    (processData o st data).1.current_tool_id = p.1
  ∧ (processData o st data).1.current_tool_name = p.2
  ∧ (processData o st data).1.current_tool_json = ""
  ∧ (processData o st data).1.tool_calls = st.tool_calls := by
  have hstop : ∀ X : AggState, stopStep o data X = X := by
    intro X
    rw [stopStep_eq]
    simp [h4]
  have hbody : (processData o st data).1 =
      messageDeltaStep o data (stopStep o data (deltaStep o data (startStep o data st)).1) := by
    unfold processData
    simp only [if_neg hd]
  have e1 : startStep o data st =
      { st with current_tool_id := p.1, current_tool_name := p.2, current_tool_json := "" } := by
    rw [startStep_eq, h1]
  rw [hbody, e1, hstop]
  refine ⟨?_, ?_, ?_, ?_⟩
  · rw [messageDeltaStep_current_tool_id, deltaStep_current_tool_id]
  · rw [messageDeltaStep_current_tool_name, deltaStep_current_tool_name]
  · rw [messageDeltaStep_current_tool_json, deltaStep_current_tool_json, h2]
    simp
  · rw [messageDeltaStep_tool_calls, deltaStep_tool_calls]

theorem toolFields_inert (o : Serde) (st : AggState) (data : String)
    (hd : data ≠ "[DONE]") (h1 : startToolUseOf o data = none)
    (h4 : strContains data stopMarker = false) :
    (processData o st data).1.current_tool_id = st.current_tool_id
  ∧ (processData o st data).1.current_tool_name = st.current_tool_name
  ∧ (processData o st data).1.current_tool_json =
      st.current_tool_json ++ (jsonFragOf o data).getD ("")
  ∧ (processData o st data).1.tool_calls = st.tool_calls := by
  have hstop : ∀ X : AggState, stopStep o data X = X := by
    intro X
    rw [stopStep_eq]
    simp [h4]
  have hbody : (processData o st data).1 =
      messageDeltaStep o data (stopStep o data (deltaStep o data (startStep o data st)).1) := by
    unfold processData
    simp only [if_neg hd]
  have e1 : startStep o data st = st := by rw [startStep_eq, h1]
  rw [hbody, e1, hstop]
  refine ⟨?_, ?_, ?_, ?_⟩
  · rw [messageDeltaStep_current_tool_id, deltaStep_current_tool_id]
  · rw [messageDeltaStep_current_tool_name, deltaStep_current_tool_name]
  · rw [messageDeltaStep_current_tool_json, deltaStep_current_tool_json]
  · rw [messageDeltaStep_tool_calls, deltaStep_tool_calls]

theorem toolFields_stopComplete (o : Serde) (st : AggState) (data : String) (i n : String)
    (hd : data ≠ "[DONE]") (h1 : startToolUseOf o data = none) (h2 : jsonFragOf o data = none)
    (h4 : strContains data stopMarker = true)
    (hid : st.current_tool_id = some i) (hn : st.current_tool_name = some n) :
    (processData o st data).1.current_tool_id = none
  ∧ (processData o st data).1.current_tool_name = none
  ∧ (processData o st data).1.current_tool_json = ""
  ∧ (processData o st data).1.tool_calls =
      st.tool_calls ++ [⟨i, n, (o.parseValue st.current_tool_json).getD Json.emptyObj⟩] := by
  have hbody : (processData o st data).1 =
      messageDeltaStep o data (stopStep o data (deltaStep o data (startStep o data st)).1) := by
    unfold processData
    simp only [if_neg hd]
  have e1 : startStep o data st = st := by rw [startStep_eq, h1]
  have eid : (deltaStep o data st).1.current_tool_id = some i := by
    rw [deltaStep_current_tool_id, hid]
  have en : (deltaStep o data st).1.current_tool_name = some n := by
    rw [deltaStep_current_tool_name, hn]
  have ej : (deltaStep o data st).1.current_tool_json = st.current_tool_json := by
    rw [deltaStep_current_tool_json, h2]
    simp
  have etc : (deltaStep o data st).1.tool_calls = st.tool_calls :=
    deltaStep_tool_calls o data st
  have e3 : stopStep o data (deltaStep o data st).1 =
      { (deltaStep o data st).1 with
            tool_calls := st.tool_calls ++
              [⟨i, n, (o.parseValue st.current_tool_json).getD Json.emptyObj⟩]
            current_tool_id := none
            current_tool_name := none
            current_tool_json := "" } := by
    rw [stopStep_eq, if_pos h4, finalizeStop_some o.parseValue _ i n eid en, etc, ej]
  rw [hbody, e1, e3]
  refine ⟨?_, ?_, ?_, ?_⟩
  · rw [messageDeltaStep_current_tool_id]
  · rw [messageDeltaStep_current_tool_name]
  · rw [messageDeltaStep_current_tool_json]
  · rw [messageDeltaStep_tool_calls]

theorem toolFields_stopIncomplete (o : Serde) (st : AggState) (data : String)
    (hd : data ≠ "[DONE]") (h1 : startToolUseOf o data = none) (h2 : jsonFragOf o data = none)
    (h4 : strContains data stopMarker = true)
    (hopen : st.current_tool_id = none ∨ st.current_tool_name = none) :
    (processData o st data).1.current_tool_id = none
  ∧ (processData o st data).1.current_tool_name = none
  ∧ (processData o st data).1.current_tool_json = st.current_tool_json
  ∧ (processData o st data).1.tool_calls = st.tool_calls := by
  have hbody : (processData o st data).1 =
      messageDeltaStep o data (stopStep o data (deltaStep o data (startStep o data st)).1) := by
    unfold processData
    simp only [if_neg hd]
  have e1 : startStep o data st = st := by rw [startStep_eq, h1]
  have hopen2 : (deltaStep o data st).1.current_tool_id = none
      ∨ (deltaStep o data st).1.current_tool_name = none := by
    rw [deltaStep_current_tool_id, deltaStep_current_tool_name]
    exact hopen
  have ej : (deltaStep o data st).1.current_tool_json = st.current_tool_json := by
    rw [deltaStep_current_tool_json, h2]
    simp
  have etc : (deltaStep o data st).1.tool_calls = st.tool_calls :=
    deltaStep_tool_calls o data st
  have e3 : stopStep o data (deltaStep o data st).1 =
      { (deltaStep o data st).1 with current_tool_id := none, current_tool_name := none } := by
    rw [stopStep_eq, if_pos h4, finalizeStop_incomplete o.parseValue _ hopen2]
  rw [hbody, e1, e3]
  refine ⟨?_, ?_, ?_, ?_⟩
  · rw [messageDeltaStep_current_tool_id]
  · rw [messageDeltaStep_current_tool_name]
  · rw [messageDeltaStep_current_tool_json]
    exact ej
  · rw [messageDeltaStep_tool_calls]
    exact etc

/-- Kinds of decoded events appearing in a well-formed stream, as the
aggregator's four branch checks observe them. -/
inductive EvKind where
  | startText
  | startTool (id name : String)
  | textDelta (t : String)
  | jsonDelta (j : String)
  | blockStop
  | passive

/-- Predicate `realizesB o data k` holds when the payload `data` is observed by the
aggregator's branch checks exactly as an event of kind `k`: a `tool_use`
block-start carrying both id and name, a text or partial-JSON delta carrying
one fragment, a block-stop line (the marker substring present), a text-kind
block-start, or a passive line with no block effect (e.g. `message_start`,
`ping` or `message_delta`, which may still carry a stop reason). -/
def realizesB (o : Serde) (data : String) : EvKind → Bool
  | EvKind.startText =>
      decide (data ≠ "[DONE]") && decide (startToolUseOf o data = none)
        && decide (textFragOf o data = none) && decide (jsonFragOf o data = none)
        && !(strContains data stopMarker) && decide (stopReasonOf o data = none)
  | EvKind.startTool i n =>
      decide (data ≠ "[DONE]") && decide (startToolUseOf o data = some (some i, some n))
        && decide (textFragOf o data = none) && decide (jsonFragOf o data = none)
        && !(strContains data stopMarker) && decide (stopReasonOf o data = none)
  | EvKind.textDelta t =>
      decide (data ≠ "[DONE]") && decide (startToolUseOf o data = none)
        && decide (textFragOf o data = some t) && decide (jsonFragOf o data = none)
        && !(strContains data stopMarker) && decide (stopReasonOf o data = none)
  | EvKind.jsonDelta j =>
      decide (data ≠ "[DONE]") && decide (startToolUseOf o data = none)
        && decide (textFragOf o data = none) && decide (jsonFragOf o data = some j)
        && !(strContains data stopMarker) && decide (stopReasonOf o data = none)
  | EvKind.blockStop =>
      decide (data ≠ "[DONE]") && decide (startToolUseOf o data = none)
        && decide (textFragOf o data = none) && decide (jsonFragOf o data = none)
        && strContains data stopMarker && decide (stopReasonOf o data = none)
  | EvKind.passive =>
      decide (data ≠ "[DONE]") && decide (startToolUseOf o data = none)
        && decide (textFragOf o data = none) && decide (jsonFragOf o data = none)
        && !(strContains data stopMarker)

/-- A payload list realizes a kind list when they pair up elementwise. -/
def realizesList (o : Serde) : List String → List EvKind → Bool
  | [], [] => true
  | d :: ds, k :: ks => realizesB o d k && realizesList o ds ks
  | _, _ => false

/-- A well-formed stream is a sequence of blocks: a text block (text-kind
block-start, text deltas, block-stop), a tool block (tool_use block-start
with id and name, partial-JSON deltas, block-stop), or a single passive
event. -/
inductive BlockSpec where
  | textBlock (frags : List String)
  | toolBlock (id name : String) (jsonFrags : List String)
  | passiveEvent

/-- The event kinds a block contributes to the stream. -/
def BlockSpec.kinds : BlockSpec → List EvKind
  | BlockSpec.textBlock frags =>
      EvKind.startText :: (frags.map EvKind.textDelta ++ [EvKind.blockStop])
  | BlockSpec.toolBlock i n js =>
      EvKind.startTool i n :: (js.map EvKind.jsonDelta ++ [EvKind.blockStop])
  | BlockSpec.passiveEvent => [EvKind.passive]

/-- The kinds of a whole well-formed stream. -/
def kindsOfSpecs (specs : List BlockSpec) : List EvKind :=
  (specs.map BlockSpec.kinds).flatten

/-- The `ToolCall` a block finalizes, if any: a tool block yields its id and
name with the parse of its concatenated fragments (empty object on parse
failure); other blocks yield none. -/
def BlockSpec.toolCallOf (pj : String → Option Json) : BlockSpec → Option ToolCall
  | BlockSpec.toolBlock i n js => some ⟨i, n, (pj (strConcat js)).getD Json.emptyObj⟩
  | _ => none

theorem realizesList_nil_kinds (o : Serde) (datas : List String)
    (h : realizesList o datas [] = true) : datas = [] := by
  cases datas with
  | nil => rfl
  | cons d ds => simp [realizesList] at h

theorem realizesList_cons_kinds (o : Serde) (datas : List String) (k : EvKind)
    (ks : List EvKind) (h : realizesList o datas (k :: ks) = true) :
    ∃ d ds, datas = d :: ds ∧ realizesB o d k = true ∧ realizesList o ds ks = true := by
  cases datas with
  | nil => simp [realizesList] at h
  | cons d ds =>
      have h2 : realizesB o d k = true ∧ realizesList o ds ks = true := by
        simpa [realizesList, Bool.and_eq_true] using h
      exact ⟨d, ds, rfl, h2.1, h2.2⟩

theorem realizesList_append (o : Serde) :
    ∀ (ks1 ks2 : List EvKind) (datas : List String),
      realizesList o datas (ks1 ++ ks2) = true →
      ∃ d1 d2, datas = d1 ++ d2 ∧ realizesList o d1 ks1 = true
        ∧ realizesList o d2 ks2 = true := by
  intro ks1
  induction ks1 with
  | nil => intro ks2 datas h; exact ⟨[], datas, rfl, rfl, h⟩
  | cons k ks ih =>
      intro ks2 datas h
      obtain ⟨d, ds, rfl, hk, hrest⟩ := realizesList_cons_kinds o datas k (ks ++ ks2) h
      obtain ⟨d1, d2, rfl, hr1, hr2⟩ := ih ks2 ds hrest
      exact ⟨d :: d1, d2, rfl, by simp [realizesList, hk, hr1], hr2⟩

theorem runData_append_state (o : Serde) :
    ∀ (d1 d2 : List String) (st : AggState),
      (runData o st (d1 ++ d2)).1 = (runData o (runData o st d1).1 d2).1 := by
  intro d1
  induction d1 with
  | nil => intro d2 st; rfl
  | cons d ds ih =>
      intro d2 st
      show (runData o (processData o st d).1 (ds ++ d2)).1 = _
      rw [ih d2 (processData o st d).1]
      rfl

theorem realizesB_startText (o : Serde) (data : String)
    (h : realizesB o data EvKind.startText = true) :
    data ≠ "[DONE]" ∧ startToolUseOf o data = none ∧ textFragOf o data = none
      ∧ jsonFragOf o data = none ∧ strContains data stopMarker = false
      ∧ stopReasonOf o data = none := by
  simp only [realizesB, Bool.and_eq_true, Bool.not_eq_true', decide_eq_true_eq] at h
  tauto

theorem realizesB_startTool (o : Serde) (data : String) (i n : String)
    (h : realizesB o data (EvKind.startTool i n) = true) :
    data ≠ "[DONE]" ∧ startToolUseOf o data = some (some i, some n)
      ∧ textFragOf o data = none ∧ jsonFragOf o data = none
      ∧ strContains data stopMarker = false ∧ stopReasonOf o data = none := by
  simp only [realizesB, Bool.and_eq_true, Bool.not_eq_true', decide_eq_true_eq] at h
  tauto

theorem realizesB_textDelta (o : Serde) (data t : String)
    (h : realizesB o data (EvKind.textDelta t) = true) :
    data ≠ "[DONE]" ∧ startToolUseOf o data = none ∧ textFragOf o data = some t
      ∧ jsonFragOf o data = none ∧ strContains data stopMarker = false
      ∧ stopReasonOf o data = none := by
  simp only [realizesB, Bool.and_eq_true, Bool.not_eq_true', decide_eq_true_eq] at h
  tauto

theorem realizesB_jsonDelta (o : Serde) (data j : String)
    (h : realizesB o data (EvKind.jsonDelta j) = true) :
    data ≠ "[DONE]" ∧ startToolUseOf o data = none ∧ textFragOf o data = none
      ∧ jsonFragOf o data = some j ∧ strContains data stopMarker = false
      ∧ stopReasonOf o data = none := by
  simp only [realizesB, Bool.and_eq_true, Bool.not_eq_true', decide_eq_true_eq] at h
  tauto

theorem realizesB_blockStop (o : Serde) (data : String)
    (h : realizesB o data EvKind.blockStop = true) :
    data ≠ "[DONE]" ∧ startToolUseOf o data = none ∧ textFragOf o data = none
      ∧ jsonFragOf o data = none ∧ strContains data stopMarker = true
      ∧ stopReasonOf o data = none := by
  simp only [realizesB, Bool.and_eq_true, decide_eq_true_eq] at h
  tauto

theorem realizesB_passive (o : Serde) (data : String)
    (h : realizesB o data EvKind.passive = true) :
    data ≠ "[DONE]" ∧ startToolUseOf o data = none ∧ textFragOf o data = none
      ∧ jsonFragOf o data = none ∧ strContains data stopMarker = false := by
  simp only [realizesB, Bool.and_eq_true, Bool.not_eq_true', decide_eq_true_eq] at h
  tauto

theorem runTextDeltas (o : Serde) (frags : List String) :
    ∀ (datas : List String) (st : AggState),
      realizesList o datas (frags.map EvKind.textDelta) = true →
      (runData o st datas).1.current_tool_id = st.current_tool_id
    ∧ (runData o st datas).1.current_tool_name = st.current_tool_name
    ∧ (runData o st datas).1.current_tool_json = st.current_tool_json
    ∧ (runData o st datas).1.tool_calls = st.tool_calls := by
  induction frags with
  | nil =>
      intro datas st h
      rw [realizesList_nil_kinds o datas h]
      exact ⟨rfl, rfl, rfl, rfl⟩
  | cons f fs ih =>
      intro datas st h
      obtain ⟨d, ds, rfl, hk, hrest⟩ := realizesList_cons_kinds o datas _ _ h
      obtain ⟨hd, h1, ht, hj, hm, hr⟩ := realizesB_textDelta o d f hk
      obtain ⟨f1, f2, f3, f4⟩ := toolFields_inert o st d hd h1 hm
      obtain ⟨g1, g2, g3, g4⟩ := ih ds (processData o st d).1 hrest
      have hshow : (runData o st (d :: ds)).1 = (runData o (processData o st d).1 ds).1 := rfl
      rw [hshow, g1, g2, g3, g4, f1, f2, f3, f4, hj]
      simp

theorem runJsonDeltas (o : Serde) (frags : List String) :
    ∀ (datas : List String) (st : AggState),
      realizesList o datas (frags.map EvKind.jsonDelta) = true →
      (runData o st datas).1.current_tool_id = st.current_tool_id
    ∧ (runData o st datas).1.current_tool_name = st.current_tool_name
    ∧ (runData o st datas).1.current_tool_json = st.current_tool_json ++ strConcat frags
    ∧ (runData o st datas).1.tool_calls = st.tool_calls := by
  induction frags with
  | nil =>
      intro datas st h
      rw [realizesList_nil_kinds o datas h]
      refine ⟨rfl, rfl, ?_, rfl⟩
      show st.current_tool_json = st.current_tool_json ++ strConcat []
      simp [strConcat]
  | cons f fs ih =>
      intro datas st h
      obtain ⟨d, ds, rfl, hk, hrest⟩ := realizesList_cons_kinds o datas _ _ h
      obtain ⟨hd, h1, ht, hj, hm, hr⟩ := realizesB_jsonDelta o d f hk
      obtain ⟨f1, f2, f3, f4⟩ := toolFields_inert o st d hd h1 hm
      obtain ⟨g1, g2, g3, g4⟩ := ih ds (processData o st d).1 hrest
      have hshow : (runData o st (d :: ds)).1 = (runData o (processData o st d).1 ds).1 := rfl
      rw [hshow, g1, g2, g3, g4, f1, f2, f3, f4, hj]
      refine ⟨rfl, rfl, ?_, rfl⟩
      show st.current_tool_json ++ f ++ strConcat fs = st.current_tool_json ++ strConcat (f :: fs)
      simp [strConcat, String.append_assoc]

theorem runBlock (o : Serde) (spec : BlockSpec) :
    ∀ (datas : List String) (st : AggState),
      st.current_tool_id = none → st.current_tool_name = none →
      realizesList o datas spec.kinds = true →
      (runData o st datas).1.tool_calls =
          st.tool_calls ++ (spec.toolCallOf o.parseValue).toList
    ∧ (runData o st datas).1.current_tool_id = none
    ∧ (runData o st datas).1.current_tool_name = none := by
  cases spec with
  | passiveEvent =>
      intro datas st hid hn h
      obtain ⟨d, ds, rfl, hk, hrest⟩ := realizesList_cons_kinds o datas _ _ h
      obtain rfl := realizesList_nil_kinds o ds hrest
      obtain ⟨hd, h1, ht, hj, hm⟩ := realizesB_passive o d hk
      obtain ⟨f1, f2, f3, f4⟩ := toolFields_inert o st d hd h1 hm
      have hshow : (runData o st [d]).1 = (processData o st d).1 := rfl
      rw [hshow, f1, f2, f4, hid, hn]
      exact ⟨by simp [BlockSpec.toolCallOf], rfl, rfl⟩
  | textBlock frags =>
      intro datas st hid hn h
      obtain ⟨d0, ds, rfl, hk0, hrest⟩ := realizesList_cons_kinds o datas _ _ h
      obtain ⟨d1, d2, rfl, hr1, hr2⟩ := realizesList_append o _ _ ds hrest
      obtain ⟨dstop, ds2, rfl, hkstop, hnil⟩ := realizesList_cons_kinds o d2 _ _ hr2
      obtain rfl := realizesList_nil_kinds o ds2 hnil
      obtain ⟨hd0, h10, ht0, hj0, hm0, hs0⟩ := realizesB_startText o d0 hk0
      obtain ⟨e1, e2, e3, e4⟩ := toolFields_inert o st d0 hd0 h10 hm0
      obtain ⟨g1, g2, g3, g4⟩ := runTextDeltas o frags d1 (processData o st d0).1 hr1
      obtain ⟨hds, h1s, hts, hjs, hms, hss⟩ := realizesB_blockStop o dstop hkstop
      have hopen : (runData o (processData o st d0).1 d1).1.current_tool_id = none
          ∨ (runData o (processData o st d0).1 d1).1.current_tool_name = none := by
        left
        rw [g1, e1, hid]
      obtain ⟨k1, k2, k3, k4⟩ :=
        toolFields_stopIncomplete o (runData o (processData o st d0).1 d1).1 dstop
          hds h1s hjs hms hopen
      have hshow : (runData o st (d0 :: (d1 ++ [dstop]))).1 =
          (processData o (runData o (processData o st d0).1 d1).1 dstop).1 := by
        show (runData o (processData o st d0).1 (d1 ++ [dstop])).1 = _
        rw [runData_append_state o d1 [dstop] (processData o st d0).1]
        rfl
      rw [hshow, k4, k1, k2]
      refine ⟨?_, rfl, rfl⟩
      rw [g4, e4]
      simp [BlockSpec.toolCallOf]
  | toolBlock i n js =>
      intro datas st hid hn h
      obtain ⟨d0, ds, rfl, hk0, hrest⟩ := realizesList_cons_kinds o datas _ _ h
      obtain ⟨d1, d2, rfl, hr1, hr2⟩ := realizesList_append o _ _ ds hrest
      obtain ⟨dstop, ds2, rfl, hkstop, hnil⟩ := realizesList_cons_kinds o d2 _ _ hr2
      obtain rfl := realizesList_nil_kinds o ds2 hnil
      obtain ⟨hd0, h10, ht0, hj0, hm0, hs0⟩ := realizesB_startTool o d0 i n hk0
      obtain ⟨e1, e2, e3, e4⟩ :=
        toolFields_start o st d0 (some i, some n) hd0 h10 hj0 hm0
      obtain ⟨g1, g2, g3, g4⟩ := runJsonDeltas o js d1 (processData o st d0).1 hr1
      obtain ⟨hds, h1s, hts, hjs, hms, hss⟩ := realizesB_blockStop o dstop hkstop
      have hid2 : (runData o (processData o st d0).1 d1).1.current_tool_id = some i := by
        rw [g1, e1]
      have hn2 : (runData o (processData o st d0).1 d1).1.current_tool_name = some n := by
        rw [g2, e2]
      obtain ⟨k1, k2, k3, k4⟩ :=
        toolFields_stopComplete o (runData o (processData o st d0).1 d1).1 dstop i n
          hds h1s hjs hms hid2 hn2
      have hshow : (runData o st (d0 :: (d1 ++ [dstop]))).1 =
          (processData o (runData o (processData o st d0).1 d1).1 dstop).1 := by
        show (runData o (processData o st d0).1 (d1 ++ [dstop])).1 = _
        rw [runData_append_state o d1 [dstop] (processData o st d0).1]
        rfl
      rw [hshow, k4, k1, k2]
      refine ⟨?_, rfl, rfl⟩
      rw [g4, e4, g3, e3]
      simp [BlockSpec.toolCallOf]

theorem runSpecs (o : Serde) :
    ∀ (specs : List BlockSpec) (datas : List String) (st : AggState),
      st.current_tool_id = none → st.current_tool_name = none →
      realizesList o datas (kindsOfSpecs specs) = true →
      (runData o st datas).1.tool_calls =
          st.tool_calls ++ specs.filterMap (BlockSpec.toolCallOf o.parseValue)
    ∧ (runData o st datas).1.current_tool_id = none
    ∧ (runData o st datas).1.current_tool_name = none := by
  intro specs
  induction specs with
  | nil =>
      intro datas st hid hn h
      have hempty : kindsOfSpecs [] = [] := rfl
      rw [hempty] at h
      obtain rfl := realizesList_nil_kinds o datas h
      exact ⟨by simp [runData], hid, hn⟩
  | cons s ss ih =>
      intro datas st hid hn h
      have hcons : kindsOfSpecs (s :: ss) = s.kinds ++ kindsOfSpecs ss := by
        simp [kindsOfSpecs]
      rw [hcons] at h
      obtain ⟨d1, d2, rfl, hr1, hr2⟩ := realizesList_append o _ _ datas h
      obtain ⟨b1, b2, b3⟩ := runBlock o s d1 st hid hn hr1
      obtain ⟨c1, c2, c3⟩ := ih d2 (runData o st d1).1 b2 b3 hr2
      have hshow : (runData o st (d1 ++ d2)).1 = (runData o (runData o st d1).1 d2).1 :=
        runData_append_state o d1 d2 st
      rw [hshow, c1, c2, c3, b1]
      refine ⟨?_, rfl, rfl⟩
      cases hcall : BlockSpec.toolCallOf o.parseValue s <;>
        simp [List.filterMap_cons, hcall]

/-- Claim C4: over any well-formed stream — blocks of text, complete
`tool_use` blocks, and passive events, in any interleaving — the finalized
tool calls are exactly one per `tool_use` block-start, in the same relative
order (with each call's id, name and parsed input); and a `tool_use`
block-start while a tool call is open discards the open call: the slot is
overwritten with the new id and name and nothing is appended for the old
one. -/
theorem C4_tool_call_count_and_order (o : Serde) :
    (∀ (datas : List String) (specs : List BlockSpec),
        realizesList o datas (kindsOfSpecs specs) = true →
        (aggregate o datas).tool_calls =
          specs.filterMap (BlockSpec.toolCallOf o.parseValue))
  ∧ (∀ (st : AggState) (data : String) (p : Option String × Option String),
        data ≠ "[DONE]" →
        startToolUseOf o data = some p →
        strContains data stopMarker = false →
        (processData o st data).1.current_tool_id = p.1
      ∧ (processData o st data).1.current_tool_name = p.2
      ∧ (processData o st data).1.tool_calls = st.tool_calls) := by
  constructor
  · intro datas specs h
    obtain ⟨c1, c2, c3⟩ := runSpecs o specs datas initState rfl rfl h
    show (runData o initState datas).1.tool_calls = _
    rw [c1]
    simp [initState]
  · intro st data p hd h1 h4
    have hstop : ∀ X : AggState, stopStep o data X = X := by
      intro X
      rw [stopStep_eq]
      simp [h4]
    have hbody : (processData o st data).1 =
        messageDeltaStep o data (stopStep o data (deltaStep o data (startStep o data st)).1) := by
      unfold processData
      simp only [if_neg hd]
    have e1 : startStep o data st =
        { st with current_tool_id := p.1, current_tool_name := p.2, current_tool_json := "" } := by
      rw [startStep_eq, h1]
    rw [hbody, e1, hstop]
    refine ⟨?_, ?_, ?_⟩
    · rw [messageDeltaStep_current_tool_id, deltaStep_current_tool_id]
    · rw [messageDeltaStep_current_tool_name, deltaStep_current_tool_name]
    · rw [messageDeltaStep_tool_calls, deltaStep_tool_calls]

/-- The sample well-formed stream: a text block carrying `Hel`, a complete
tool block for `t1`/`get_current_time` whose input arrives as two brace
fragments, and a trailing `message_delta`. -/
def demoDatas : List String :=
  [dStartText, dTextHel, dStop, dStartTool, dJsonOpen, dJsonClose, dStop, dMsgToolUse]

/-- The block structure of `demoDatas`. -/
def demoSpecs : List BlockSpec :=
  [BlockSpec.textBlock ["Hel"],
   BlockSpec.toolBlock ("t1") ("get_current_time") ["\x7b", "\x7d"],
   BlockSpec.passiveEvent]

/-- Witness for C4: the sample stream realizes its block structure, yields
exactly the one tool call of its one `tool_use` block-start, and a `tool_use`
block-start over an open tool call discards the open call and appends
nothing. -/
theorem C4_tool_call_count_witness :
    realizesList demoSerde demoDatas (kindsOfSpecs demoSpecs) = true
  ∧ (aggregate demoSerde demoDatas).tool_calls =
      [⟨"t1", "get_current_time", Json.emptyObj⟩]
  ∧ ((processData demoSerde bothDeltaState dStartTool).1.current_tool_id = some ("t1")
      ∧ (processData demoSerde bothDeltaState dStartTool).1.current_tool_name =
          some ("get_current_time")
      ∧ (processData demoSerde bothDeltaState dStartTool).1.tool_calls = []) := by
  have hreal : realizesList demoSerde demoDatas (kindsOfSpecs demoSpecs) = true := by rfl
  refine ⟨hreal, ?_, ?_⟩
  · rw [(C4_tool_call_count_and_order demoSerde).1 demoDatas demoSpecs hreal]
    rfl
  · exact (C4_tool_call_count_and_order demoSerde).2 bothDeltaState dStartTool
      (some ("t1"), some ("get_current_time")) (by decide) rfl (by decide)
